import Mathlib

/-!
Verification of `ai-artifact-provenance-recorder` (`src/main.py`).

The program keeps an in-memory provenance record as a Python dict parsed
from / serialized to JSON.  We shallowly embed the JSON values the program
manipulates as an inductive `Json` type whose objects are association lists
with Python-dict semantics (insertion order preserved, assignment replaces
in place, new keys appended at the end).  File contents are lists of bytes
(`Nat`), timestamps are opaque strings supplied by a clock parameter, and
the `hashlib` backend is an abstract streaming-digest structure looked up
by algorithm name, per the design notes of the specification.
-/

namespace Provenance

/-- JSON values, as produced by Python's `json.load` (dicts keep insertion
order, so objects are association lists). -/
inductive Json where
  | null : Json
  | str (s : String) : Json
  | num (n : Int) : Json
  | bool (b : Bool) : Json
  | arr (xs : List Json) : Json
  | obj (kvs : List (String × Json)) : Json

/-- `d[k]` lookup on a Python dict (first matching key). -/
def lookupKey : List (String × Json) → String → Option Json
  | [], _ => none
  | (k', v') :: rest, k => if k' = k then some v' else lookupKey rest k

/-- `d[k] = v` assignment on a Python dict: replaces the value of an
existing key in place, appends a new key at the end. -/
def setKey : List (String × Json) → String → Json → List (String × Json)
  | [], k, v => [(k, v)]
  | (k', v') :: rest, k, v =>
      if k' = k then (k, v) :: rest else (k', v') :: setKey rest k v

/-- Number of entries of an association list carrying the key `k`
(for a Python dict this is always 0 or 1). -/
def keyCount (kvs : List (String × Json)) (k : String) : Nat :=
  (kvs.filter (fun p => p.1 == k)).length

theorem lookupKey_setKey_self (kvs : List (String × Json)) (k : String) (v : Json) :
    lookupKey (setKey kvs k v) k = some v := by
  induction kvs with
  | nil => simp [setKey, lookupKey]
  | cons p rest ih =>
      obtain ⟨k0, v0⟩ := p
      by_cases h : k0 = k
      · simp [setKey, lookupKey, h]
      · simp [setKey, lookupKey, h, ih]

theorem lookupKey_setKey_ne (kvs : List (String × Json)) (k k' : String) (v : Json)
    (h : k' ≠ k) : lookupKey (setKey kvs k v) k' = lookupKey kvs k' := by
  have hne : k ≠ k' := Ne.symm h
  induction kvs with
  | nil => simp [setKey, lookupKey, hne]
  | cons p rest ih =>
      obtain ⟨k0, v0⟩ := p
      by_cases hp : k0 = k
      · subst hp
        simp [setKey, lookupKey, hne]
      · simp [setKey, lookupKey, hp, ih]

theorem keyCount_cons (k0 : String) (v0 : Json) (rest : List (String × Json)) (k : String) :
    keyCount ((k0, v0) :: rest) k = (if k0 = k then 1 else 0) + keyCount rest k := by
  by_cases h : k0 = k <;> simp [keyCount, List.filter_cons, h]
  omega

theorem keyCount_setKey (kvs : List (String × Json)) (k : String) (v : Json)
    (h : keyCount kvs k ≤ 1) : keyCount (setKey kvs k v) k = 1 := by
  induction kvs with
  | nil => simp [setKey, keyCount]
  | cons p rest ih =>
      obtain ⟨k0, v0⟩ := p
      by_cases hp : k0 = k
      · subst hp
        rw [keyCount_cons] at h
        simp at h
        have hrest : keyCount rest k0 = 0 := by omega
        rw [show setKey ((k0, v0) :: rest) k0 v = (k0, v) :: rest from by
          simp [setKey]]
        rw [keyCount_cons]
        simp [hrest]
      · have h' : keyCount rest k ≤ 1 := by
          rw [keyCount_cons, if_neg hp] at h
          omega
        rw [show setKey ((k0, v0) :: rest) k v = (k0, v0) :: setKey rest k v from by
          simp [setKey, hp]]
        rw [keyCount_cons, if_neg hp, ih h']

/-! ### The hashing backend (`hashlib`)

`hashlib.new(algorithm)` yields a streaming digest object: an internal
state, an `update` that absorbs bytes, and a finalization to digest bytes.
Absorbing a chunk is absorbing its bytes one after the other, which is
exactly the `hashlib` guarantee that `update(a); update(b)` equals
`update(a + b)`.  The set of supported algorithm names is a lookup from
name to backend; `hashlib.new` raises for names outside it. -/

structure HashBackend (σ : Type) where
  init : σ
  updByte : σ → Nat → σ
  final : σ → List Nat

/-- `hasher.update(chunk)`: absorb one chunk of bytes. -/
def updChunk {σ : Type} (B : HashBackend σ) (s : σ) (chunk : List Nat) : σ :=
  chunk.foldl B.updByte s

/-- `f.read(4096)` loop of `calculate_hash`: split the file content into
chunks of (at most) 4096 bytes, in order. -/
def chunkSize : Nat := 4096

def readChunks : List Nat → List (List Nat)
  | [] => []
  | b :: rest => ((b :: rest).take chunkSize) :: readChunks ((b :: rest).drop chunkSize)
termination_by l => l.length
decreasing_by
  simp [chunkSize]
  omega

/-- The digest as `calculate_hash` computes it: stream the chunks through
the running hasher, then finalize. -/
def streamBytes {σ : Type} (B : HashBackend σ) (content : List Nat) : List Nat :=
  B.final ((readChunks content).foldl (updChunk B) B.init)

/-- Nibble to lowercase hexadecimal character. -/
def hexChar (n : Nat) : Char :=
  if n < 10 then Char.ofNat (48 + n) else Char.ofNat (87 + n)

/-- `hexdigest()`: each digest byte as two lowercase hex characters. -/
def hexDigestChars (bs : List Nat) : List Char :=
  bs.foldr (fun b acc => hexChar (b / 16 % 16) :: hexChar (b % 16) :: acc) []

def hexDigest (bs : List Nat) : String :=
  String.mk (hexDigestChars bs)

/-- Is `c` one of the characters `0`-`9`, `a`-`f`? -/
def isLowerHexChar (c : Char) : Bool :=
  (48 ≤ c.toNat && c.toNat ≤ 57) || (97 ≤ c.toNat && c.toNat ≤ 102)

/-- The digest string recorded for a file: lowercase hex of the streamed
digest of its bytes. -/
def streamDigest {σ : Type} (B : HashBackend σ) (content : List Nat) : String :=
  hexDigest (streamBytes B content)

/-! ### The provenance record operations (`ProvenanceRecorder`) -/

/-- The on-disk state of the provenance file: missing, present but not
valid JSON (`json.load` raises `JSONDecodeError`), or present and parsing
to a JSON value. -/
inductive ProvFile where
  | absent : ProvFile
  | invalid : ProvFile
  | valid (j : Json) : ProvFile

/-- The fresh record built in `__init__` (`self.provenance_data = {...}`):
note `artifact_hash` is the key set to JSON `null`, the data model's
"absent/null, never computed" state. -/
def freshRecord (artifactPath now : String) : Json :=
  .obj [("artifact", .str artifactPath), ("created_at", .str now),
        ("build_steps", .arr []), ("artifact_hash", .null)]

/-- `__init__` + `load_existing_provenance`: build the fresh record, then
replace it with the parsed file contents when the file exists and parses;
on a parse failure log a warning (second component) and keep the fresh
record. -/
def initRecorder (artifactPath now : String) (file : ProvFile) : Json × Bool :=
  match file with
  | .absent => (freshRecord artifactPath now, false)
  | .invalid => (freshRecord artifactPath now, true)
  | .valid j => (j, false)

/-- The step dict built by `add_build_step`: `command`, `executed_at`, and
`version` only when the argument is truthy (Python `if version:` — both
`None` and the empty string are falsy). -/
def stepFields (command : String) (version : Option String) (now : String) :
    List (String × Json) :=
  [("command", Json.str command), ("executed_at", Json.str now)] ++
    (match version with
     | some v => if v = "" then [] else [("version", Json.str v)]
     | none => [])

def buildStepJson (command : String) (version : Option String) (now : String) : Json :=
  .obj (stepFields command version now)

/-- `add_build_step`: `self.provenance_data["build_steps"].append(step)`.
Subscripting a non-dict, a missing key, or `.append` on a non-list raise
(the method re-raises after logging). -/
def addBuildStep (j : Json) (command : String) (version : Option String)
    (now : String) : Except String Json :=
  match j with
  | .obj kvs =>
      match lookupKey kvs "build_steps" with
      | some (.arr steps) =>
          .ok (.obj (setKey kvs "build_steps"
            (.arr (steps ++ [buildStepJson command version now]))))
      | some _ => .error "AttributeError"
      | none => .error "KeyError"
  | _ => .error "TypeError"

/-- The `{"algorithm": ..., "hash": ...}` dict stored by `calculate_hash`. -/
def hashResultJson (algorithm digest : String) : Json :=
  .obj [("algorithm", Json.str algorithm), ("hash", Json.str digest)]

/-- `calculate_hash`: check the artifact exists, look the algorithm up in
the backend (`hashlib.new` raises for unsupported names), stream the file
through the hasher in 4096-byte chunks, store `{"algorithm", "hash"}` under
`artifact_hash` (replacing any prior value).  Each failure re-raises after
logging. -/
def calculateHash {σ : Type} (backend : Option (HashBackend σ))
    (artifactExists : Bool) (content : List Nat) (j : Json)
    (algorithm : String) : Except String Json :=
  if artifactExists = false then .error "FileNotFoundError" else
  match backend with
  | none => .error "ValueError: unsupported hash type"
  | some B =>
      match j with
      | .obj kvs =>
          .ok (.obj (setKey kvs "artifact_hash"
            (hashResultJson algorithm (streamDigest B content))))
      | _ => .error "TypeError"

/-- `save_provenance`: `json.dump` the record, overwriting the file in
full; the file afterwards holds exactly the serialized record. -/
def saveProvenance (j : Json) : ProvFile :=
  .valid j

/-- Field access `j[k]` on a record (None when `j` is not a dict or lacks
the key), used to compare records field for field. -/
def jField (j : Json) (k : String) : Option Json :=
  match j with
  | .obj kvs => lookupKey kvs k
  | _ => none

/-- A sequence of `add_build_step` calls, each given as
`(command, version, timestamp)`, stopping at the first raised error. -/
def addSteps (j : Json) : List (String × Option String × String) → Except String Json
  | [] => .ok j
  | c :: rest =>
      match addBuildStep j c.1 c.2.1 c.2.2 with
      | .ok j2 => addSteps j2 rest
      | .error e => .error e

/-! ### The command-line entry point (`main`) -/

/-- The parsed command-line arguments (`argparse`).  `command` and
`version` are `none` when the flags are omitted. -/
structure Args where
  artifact_path : String
  provenance_file : String
  command : Option String
  version : Option String
  hash_algorithm : String

/-- One run of `main`, returning the process exit code and the provenance
file afterwards.  `reg` is the hashing backend registry (`hashlib`),
`artifactExists` and `content` describe the artifact file, `prov` the
provenance file before the run, `tInit`/`tStep` the two `utcnow()` reads.
Any raised error is caught at the top level and turns into `sys.exit(1)`
with the provenance file untouched (nothing is written before
`save_provenance`). -/
def runMain {σ : Type} (reg : String → Option (HashBackend σ)) (args : Args)
    (artifactExists : Bool) (content : List Nat) (prov : ProvFile)
    (tInit tStep : String) : Nat × ProvFile :=
  if artifactExists = false then (1, prov) else
  let j0 := (initRecorder args.artifact_path tInit prov).1
  let afterStep : Except String Json :=
    match args.command with
    | none => .ok j0
    | some c => if c = "" then .ok j0 else addBuildStep j0 c args.version tStep
  match afterStep with
  | .error _ => (1, prov)
  | .ok j1 =>
      match calculateHash (reg args.hash_algorithm) artifactExists content j1
          args.hash_algorithm with
      | .error _ => (1, prov)
      | .ok j2 => (0, saveProvenance j2)

/-! ### Concrete instances for evaluating the theorems -/

/-- A small executable streaming backend standing in for one `hashlib`
algorithm, used to evaluate the abstract-interface theorems on concrete
inputs. -/
def demoBackend : HashBackend Nat where
  init := 0
  updByte := fun s b => (s * 31 + b) % 256
  final := fun s => [s]

/-- A registry supporting exactly one algorithm name. -/
def demoRegistry : String → Option (HashBackend Nat) :=
  fun a => if a = "demo" then some demoBackend else none

def sampleStep : Json :=
  buildStepJson "./configure" none "2024-01-01T00:00:00Z"

/-- A well-formed on-disk record with one prior build step. -/
def sampleKvs : List (String × Json) :=
  [("artifact", Json.str "foo.bin"),
   ("created_at", Json.str "2024-01-01T00:00:00Z"),
   ("build_steps", Json.arr [sampleStep]),
   ("artifact_hash", Json.null)]

def sampleArgs : Args :=
  ⟨"foo.bin", "provenance.json", some "gcc -o foo foo.c", none, "demo"⟩

def sampleArgsNoCmd : Args :=
  ⟨"bar.bin", "provenance.json", none, none, "demo"⟩

def sampleArgsBadAlg : Args :=
  ⟨"foo.bin", "provenance.json", some "gcc -o foo foo.c", some "", "md999"⟩

/-! ### Streaming-hash lemmas -/

theorem readChunks_join (l : List Nat) : (readChunks l).flatten = l := by
  induction l using readChunks.induct with
  | case1 => simp [readChunks]
  | case2 b rest ih =>
      rw [readChunks]
      simp [ih]

theorem foldl_updChunk_join {σ : Type} (B : HashBackend σ) (cs : List (List Nat)) (s : σ) :
    cs.foldl (updChunk B) s = cs.flatten.foldl B.updByte s := by
  induction cs generalizing s with
  | nil => simp
  | cons c cs ih => simp [updChunk, List.foldl_append, ih]

/-- Streaming the file through the hasher chunk by chunk absorbs exactly
the whole byte content, in order. -/
theorem streamBytes_eq_whole {σ : Type} (B : HashBackend σ) (content : List Nat) :
    streamBytes B content = B.final (content.foldl B.updByte B.init) := by
  rw [streamBytes, foldl_updChunk_join, readChunks_join]

theorem isLowerHexChar_hexChar (m : Nat) (h : m < 16) :
    isLowerHexChar (hexChar m) = true := by
  interval_cases m <;> decide

theorem hexDigest_lowercase (bs : List Nat) :
    (hexDigest bs).data.all isLowerHexChar = true := by
  show (hexDigestChars bs).all isLowerHexChar = true
  induction bs with
  | nil => rfl
  | cons b bs ih =>
      simp only [hexDigestChars, List.foldr_cons, List.all_cons, Bool.and_eq_true] at ih ⊢
      refine ⟨isLowerHexChar_hexChar _ (Nat.mod_lt _ (by norm_num)),
        isLowerHexChar_hexChar _ (Nat.mod_lt _ (by norm_num)), ?_⟩
      exact ih

/-- C1: for every readable file and supported algorithm, `calculate_hash`
stores `{algorithm, hash}` under `artifact_hash`, where the hash is the
lowercase hexadecimal digest of the file's entire byte content absorbed at
once — the chunked streaming loop computes exactly that, so the result is
a function of the file bytes and the algorithm alone. -/
theorem calculate_hash_streams_whole_content {σ : Type} (B : HashBackend σ)
    (content : List Nat) (kvs : List (String × Json)) (a : String) :
    calculateHash (some B) true content (Json.obj kvs) a =
      .ok (.obj (setKey kvs "artifact_hash"
        (hashResultJson a (hexDigest (B.final (content.foldl B.updByte B.init)))))) ∧
    (hexDigest (B.final (content.foldl B.updByte B.init))).data.all isLowerHexChar
      = true := by
  constructor
  · simp [calculateHash, streamDigest, streamBytes_eq_whole]
  · exact hexDigest_lowercase _

/-- C2: when the artifact path names no existing file, `main` exits with
status 1 and the provenance file is exactly what it was before the run —
still absent if it was absent, byte-for-byte content otherwise (nothing is
written on the failure path). -/
theorem missing_artifact_exits_1_file_untouched {σ : Type}
    (reg : String → Option (HashBackend σ)) (args : Args) (content : List Nat)
    (prov : ProvFile) (tInit tStep : String) :
    runMain reg args false content prov tInit tStep = (1, prov) := by
  simp [runMain]

/-- C3: when the provenance file is missing, or exists but fails to parse,
the recorder starts from a fresh record whose `artifact` is the
caller-supplied artifact path, `created_at` the current time,
`build_steps` empty, and `artifact_hash` holding no digest (JSON null, the
data model's absent state); the parse failure only logs a warning (second
component `true`) and the constructor still returns the fresh record. -/
theorem load_missing_or_unparsable_starts_fresh (artifactPath now : String) :
    initRecorder artifactPath now .absent = (freshRecord artifactPath now, false) ∧
    initRecorder artifactPath now .invalid = (freshRecord artifactPath now, true) ∧
    jField (freshRecord artifactPath now) "artifact" = some (.str artifactPath) ∧
    jField (freshRecord artifactPath now) "created_at" = some (.str now) ∧
    jField (freshRecord artifactPath now) "build_steps" = some (.arr []) ∧
    jField (freshRecord artifactPath now) "artifact_hash" = some .null := by
  refine ⟨rfl, rfl, ?_, ?_, ?_, ?_⟩ <;> rfl

/-- C4: a sequence of `add_build_step` calls on a record appends exactly
one step per call, at the end, in call order: afterwards `build_steps` is
the old sequence followed by the new steps, so every earlier entry is
unchanged by every later append, the length grows by the number of calls,
and no other field of the record is touched. -/
theorem add_build_step_append_only (kvs : List (String × Json)) (steps0 : List Json)
    (calls : List (String × Option String × String))
    (h : lookupKey kvs "build_steps" = some (.arr steps0)) :
    ∃ kvs2, addSteps (.obj kvs) calls = .ok (.obj kvs2) ∧
      lookupKey kvs2 "build_steps" =
        some (.arr (steps0 ++ calls.map (fun c => buildStepJson c.1 c.2.1 c.2.2))) ∧
      (steps0 ++ calls.map (fun c => buildStepJson c.1 c.2.1 c.2.2)).length
        = steps0.length + calls.length ∧
      ∀ k, k ≠ "build_steps" → lookupKey kvs2 k = lookupKey kvs k := by
  induction calls generalizing kvs steps0 with
  | nil =>
      exact ⟨kvs, rfl, by simpa using h, by simp, fun k _ => rfl⟩
  | cons c rest ih =>
      obtain ⟨cmd, ver, t⟩ := c
      have hstep : addBuildStep (.obj kvs) cmd ver t =
          .ok (.obj (setKey kvs "build_steps"
            (.arr (steps0 ++ [buildStepJson cmd ver t])))) := by
        simp [addBuildStep, h]
      obtain ⟨kvs2, h1, h2, h3, h4⟩ :=
        ih (setKey kvs "build_steps" (.arr (steps0 ++ [buildStepJson cmd ver t])))
          (steps0 ++ [buildStepJson cmd ver t]) (lookupKey_setKey_self _ _ _)
      refine ⟨kvs2, ?_, ?_, ?_, ?_⟩
      · simp [addSteps, hstep, h1]
      · simpa [List.append_assoc] using h2
      · simp
      · intro k hk
        rw [h4 k hk, lookupKey_setKey_ne _ _ _ _ hk]

/-- C4 witness: two concrete calls on a fresh record. -/
theorem add_build_step_append_only_witness :
    lookupKey [("build_steps", Json.arr [])] "build_steps" = some (.arr []) ∧
    ∃ kvs2, addSteps (.obj [("build_steps", Json.arr [])])
        [("gcc -o foo foo.c", some "11.2", "t1"), ("strip foo", none, "t2")]
        = .ok (.obj kvs2) ∧
      lookupKey kvs2 "build_steps" =
        some (.arr (([] : List Json) ++
          ([("gcc -o foo foo.c", some "11.2", "t1"),
            ("strip foo", none, "t2")].map
            (fun c => buildStepJson c.1 c.2.1 c.2.2)))) ∧
      (([] : List Json) ++
          ([("gcc -o foo foo.c", some "11.2", "t1"),
            ("strip foo", none, "t2")].map
            (fun c => buildStepJson c.1 c.2.1 c.2.2))).length
        = ([] : List Json).length + 2 ∧
      ∀ k, k ≠ "build_steps" →
        lookupKey kvs2 k = lookupKey [("build_steps", Json.arr [])] k :=
  ⟨rfl, add_build_step_append_only [("build_steps", Json.arr [])] [] _ rfl⟩

/-- C5 counterexample: calling `add_build_step` with the empty string as
the supplied version yields a step with no `version` field — `if version:`
is Python truthiness, so a supplied-but-empty version is dropped, refuting
"present iff supplied". -/
theorem version_field_iff_supplied_cex :
    ¬ ((lookupKey (stepFields "make" (some "") "t") "version").isSome
        = (some "" : Option String).isSome) := by
  decide

/-- C5 amended: the appended step carries the `version` field exactly when
the supplied version argument is truthy — present, and non-empty; an
absent or empty version leaves the field omitted entirely (no null
placeholder, the key is simply not there). -/
theorem version_field_iff_truthy (command now : String) (version : Option String) :
    lookupKey (stepFields command version now) "version" =
      match version with
      | some v => if v = "" then none else some (.str v)
      | none => none := by
  match version with
  | none => rfl
  | some v =>
      by_cases h : v = "" <;> simp [stepFields, lookupKey, h]

/-- C6: saving a record and loading the resulting file reproduces the
record exactly — `save_provenance` writes the serialized record and
`load_existing_provenance` takes the parsed value as-is, so every field
(`artifact`, `build_steps`, `artifact_hash`, ...) of the reloaded record
equals that of the saved one, independent of key order (fields are reached
by key lookup, not position). -/
theorem save_then_load_round_trip (artifactPath now : String) (j : Json) :
    (initRecorder artifactPath now (saveProvenance j)).1 = j ∧
    ∀ k, jField (initRecorder artifactPath now (saveProvenance j)).1 k = jField j k :=
  ⟨rfl, fun _ => rfl⟩

/-- C7: two successive successful `calculate_hash` calls on the same
record leave exactly one `artifact_hash` entry, and it holds the algorithm
and digest of the second call only — the first call's value is overwritten
in place, not kept alongside. -/
theorem calculate_hash_overwrites {σ : Type} (B1 B2 : HashBackend σ)
    (content : List Nat) (kvs : List (String × Json)) (a1 a2 : String)
    (h : keyCount kvs "artifact_hash" ≤ 1) :
    ∃ kvs1 kvs2,
      calculateHash (some B1) true content (.obj kvs) a1 = .ok (.obj kvs1) ∧
      calculateHash (some B2) true content (.obj kvs1) a2 = .ok (.obj kvs2) ∧
      keyCount kvs2 "artifact_hash" = 1 ∧
      lookupKey kvs2 "artifact_hash" =
        some (hashResultJson a2 (streamDigest B2 content)) := by
  refine ⟨setKey kvs "artifact_hash" (hashResultJson a1 (streamDigest B1 content)),
    setKey (setKey kvs "artifact_hash" (hashResultJson a1 (streamDigest B1 content)))
      "artifact_hash" (hashResultJson a2 (streamDigest B2 content)),
    ?_, ?_, ?_, ?_⟩
  · simp [calculateHash]
  · simp [calculateHash]
  · exact keyCount_setKey _ _ _ (le_of_eq (keyCount_setKey _ _ _ h))
  · exact lookupKey_setKey_self _ _ _

/-- C7 witness: hashing a concrete record twice with two algorithm names. -/
theorem calculate_hash_overwrites_witness :
    keyCount sampleKvs "artifact_hash" ≤ 1 ∧
    ∃ kvs1 kvs2,
      calculateHash (some demoBackend) true [104, 105] (.obj sampleKvs) "sha256"
        = .ok (.obj kvs1) ∧
      calculateHash (some demoBackend) true [104, 105] (.obj kvs1) "sha512"
        = .ok (.obj kvs2) ∧
      keyCount kvs2 "artifact_hash" = 1 ∧
      lookupKey kvs2 "artifact_hash" =
        some (hashResultJson "sha512" (streamDigest demoBackend [104, 105])) :=
  ⟨by decide,
    calculate_hash_overwrites demoBackend demoBackend [104, 105] sampleKvs
      "sha256" "sha512" (by decide)⟩

/-- C8: a run that loads an existing valid record and appends one step via
`--command` leaves `created_at` and every previously recorded step exactly
as loaded: the new step is appended after the old sequence, and no key
other than `build_steps` and `artifact_hash` is touched. -/
theorem second_run_appends_preserving_history {σ : Type}
    (reg : String → Option (HashBackend σ)) (B : HashBackend σ) (args : Args)
    (content : List Nat) (kvs : List (String × Json)) (steps0 : List Json)
    (cmd : String) (tInit tStep : String)
    (hcmd : args.command = some cmd) (hne : cmd ≠ "")
    (hsteps : lookupKey kvs "build_steps" = some (.arr steps0))
    (halg : reg args.hash_algorithm = some B) :
    ∃ kvs2, runMain reg args true content (.valid (.obj kvs)) tInit tStep
        = (0, .valid (.obj kvs2)) ∧
      lookupKey kvs2 "created_at" = lookupKey kvs "created_at" ∧
      lookupKey kvs2 "build_steps" =
        some (.arr (steps0 ++ [buildStepJson cmd args.version tStep])) ∧
      ∀ k, k ≠ "build_steps" → k ≠ "artifact_hash" →
        lookupKey kvs2 k = lookupKey kvs k := by
  refine ⟨setKey (setKey kvs "build_steps"
      (.arr (steps0 ++ [buildStepJson cmd args.version tStep])))
      "artifact_hash" (hashResultJson args.hash_algorithm (streamDigest B content)),
    ?_, ?_, ?_, ?_⟩
  · simp [runMain, initRecorder, hcmd, hne, addBuildStep, hsteps,
      calculateHash, halg, saveProvenance]
  · rw [lookupKey_setKey_ne _ _ _ _ (by decide),
      lookupKey_setKey_ne _ _ _ _ (by decide)]
  · rw [lookupKey_setKey_ne _ _ _ _ (by decide), lookupKey_setKey_self]
  · intro k hk1 hk2
    rw [lookupKey_setKey_ne _ _ _ _ hk2, lookupKey_setKey_ne _ _ _ _ hk1]

/-- C8 witness: a second run over a stored record with one prior step. -/
theorem second_run_appends_preserving_history_witness :
    sampleArgs.command = some "gcc -o foo foo.c" ∧
    ("gcc -o foo foo.c" ≠ "") ∧
    lookupKey sampleKvs "build_steps" = some (.arr [sampleStep]) ∧
    demoRegistry sampleArgs.hash_algorithm = some demoBackend ∧
    (∃ kvs2, runMain demoRegistry sampleArgs true [104, 105]
        (.valid (.obj sampleKvs)) "T1" "T2" = (0, .valid (.obj kvs2)) ∧
      lookupKey kvs2 "created_at" = lookupKey sampleKvs "created_at" ∧
      lookupKey kvs2 "build_steps" =
        some (.arr ([sampleStep] ++
          [buildStepJson "gcc -o foo foo.c" sampleArgs.version "T2"])) ∧
      ∀ k, k ≠ "build_steps" → k ≠ "artifact_hash" →
        lookupKey kvs2 k = lookupKey sampleKvs k) :=
  ⟨rfl, by decide, rfl, rfl,
    second_run_appends_preserving_history demoRegistry demoBackend sampleArgs
      [104, 105] sampleKvs [sampleStep] "gcc -o foo foo.c" "T1" "T2"
      rfl (by decide) rfl rfl⟩

/-- C9: when the requested algorithm is not supported by the hashing
backend, the run aborts with exit status 1 and the provenance file is left
exactly as it was — `calculate_hash` raises before any hash is stored and
`save_provenance` is never reached. -/
theorem unsupported_algorithm_exits_1 {σ : Type}
    (reg : String → Option (HashBackend σ)) (args : Args) (content : List Nat)
    (prov : ProvFile) (tInit tStep : String)
    (halg : reg args.hash_algorithm = none) :
    runMain reg args true content prov tInit tStep = (1, prov) := by
  obtain ⟨ap, pf, cmd, ver, alg⟩ := args
  simp only at halg
  rcases cmd with _ | c
  · simp [runMain, calculateHash, halg]
  · by_cases hc : c = ""
    · simp [runMain, hc, calculateHash, halg]
    · rcases hstep : addBuildStep (initRecorder ap tInit prov).1 c ver tStep with e | j1
      · simp [runMain, hc, hstep]
      · simp [runMain, hc, hstep, calculateHash, halg]

/-- C9 witness: a run requesting an algorithm the registry does not know. -/
theorem unsupported_algorithm_exits_1_witness :
    demoRegistry sampleArgsBadAlg.hash_algorithm = none ∧
    runMain demoRegistry sampleArgsBadAlg true [104, 105]
      (.valid (.obj sampleKvs)) "T1" "T2" = (1, .valid (.obj sampleKvs)) :=
  ⟨rfl, unsupported_algorithm_exits_1 demoRegistry sampleArgsBadAlg [104, 105]
    (.valid (.obj sampleKvs)) "T1" "T2" rfl⟩

/-- C10: a run over an existing valid record keeps whatever `artifact`
value the file held — the loaded dict replaces the freshly initialized one
wholesale, so the current invocation's artifact path never reaches the
stored `artifact` field, while `artifact_hash` is set from the file hashed
in this run. -/
theorem loaded_artifact_field_preserved {σ : Type}
    (reg : String → Option (HashBackend σ)) (B : HashBackend σ) (args : Args)
    (content : List Nat) (kvs : List (String × Json)) (tInit tStep : String)
    (hcmd : args.command = none)
    (halg : reg args.hash_algorithm = some B) :
    ∃ kvs2, runMain reg args true content (.valid (.obj kvs)) tInit tStep
        = (0, .valid (.obj kvs2)) ∧
      lookupKey kvs2 "artifact" = lookupKey kvs "artifact" ∧
      lookupKey kvs2 "artifact_hash" =
        some (hashResultJson args.hash_algorithm
          (hexDigest (B.final (content.foldl B.updByte B.init)))) := by
  refine ⟨setKey kvs "artifact_hash"
      (hashResultJson args.hash_algorithm (streamDigest B content)), ?_, ?_, ?_⟩
  · simp [runMain, initRecorder, hcmd, calculateHash, halg, saveProvenance]
  · exact lookupKey_setKey_ne _ _ _ _ (by decide)
  · rw [lookupKey_setKey_self]
    simp [streamDigest, streamBytes_eq_whole]

/-- C10 witness: the invocation names `bar.bin` but the stored record says
`foo.bin`; after the run the stored `artifact` is still the old value. -/
theorem loaded_artifact_field_preserved_witness :
    sampleArgsNoCmd.command = none ∧
    demoRegistry sampleArgsNoCmd.hash_algorithm = some demoBackend ∧
    (∃ kvs2, runMain demoRegistry sampleArgsNoCmd true [104, 105]
        (.valid (.obj sampleKvs)) "T1" "T2" = (0, .valid (.obj kvs2)) ∧
      lookupKey kvs2 "artifact" = lookupKey sampleKvs "artifact" ∧
      lookupKey kvs2 "artifact_hash" =
        some (hashResultJson sampleArgsNoCmd.hash_algorithm
          (hexDigest (demoBackend.final
            ([104, 105].foldl demoBackend.updByte demoBackend.init))))) :=
  ⟨rfl, rfl,
    loaded_artifact_field_preserved demoRegistry demoBackend sampleArgsNoCmd
      [104, 105] sampleKvs "T1" "T2" rfl rfl⟩

end Provenance
